import Mathlib

/-!
# Verification of the kanakku account importer pipeline

Shallow embedding of `src/tools/accountimporter/src/main.rs`: a linear
pipeline that reads a ledger file, extracts `account <name>` declaration
lines with the regex `^account\s+(.+)$`, resolves a book name to an id via
a GET to the books endpoint, and POSTs one creation request per account.

Network I/O is modelled by oracles describing what the HTTP layer returns
(status, body text, and the results of the serde JSON parses, which are
library calls), and the run is modelled as the list of observable events
(network calls and printed lines) that `main` produces.  Verbose-only
debug prints (behind `args.verbose`) and URL echo prints are elided from
the event trace; every non-verbose print is modelled.
-/

namespace Kanakku

/-- Rust `char::is_whitespace` / regex-crate `\s`, both of which are the
Unicode `White_Space` property. -/
def isWs (c : Char) : Bool :=
  c.val = 0x20 || c.val = 0x09 || c.val = 0x0A || c.val = 0x0B || c.val = 0x0C ||
  c.val = 0x0D || c.val = 0x85 || c.val = 0xA0 || c.val = 0x1680 ||
  (0x2000 ≤ c.val && c.val ≤ 0x200A) ||
  c.val = 0x2028 || c.val = 0x2029 || c.val = 0x202F || c.val = 0x205F || c.val = 0x3000

/-- Rust `str::trim`: drop leading and trailing `White_Space` characters. -/
def trimChars (s : List Char) : List Char :=
  ((s.dropWhile isWs).reverse.dropWhile isWs).reverse

/-- The `\s+(.+)$` tail of the account regex, run against the text after the
literal `account` token, with the regex engine's greedy, backtracking
semantics: `\s+` consumes the longest whitespace run that still leaves a
non-empty remainder for `(.+)`, `.` matches any character except newline,
and `$` anchors at the end of the text (Rust regex `$` has no
before-final-newline rule).  Returns the captured group on a match. -/
def matchWsCap : List Char → Option (List Char)
  | [] => none
  | c :: rest =>
    if isWs c then
      match matchWsCap rest with
      | some cap => some cap
      | none =>
        if rest.isEmpty then none
        else if rest.all (fun d => d != '\n') then some rest else none
    else none

/-- The full regex `^account\s+(.+)$` from `main` (line 203): on a match,
returns the captured group. -/
def matchAccountLine (line : List Char) : Option (List Char) :=
  if line.take 7 = "account".toList then matchWsCap (line.drop 7) else none

/-- What the parsing loop in `main` (lines 207-222) extracts from one line:
if the regex matches, the capture trimmed of leading/trailing whitespace
(`captures.get(1).unwrap().as_str().trim()`), pushed unconditionally. -/
def extractName (line : List Char) : Option (List Char) :=
  (matchAccountLine line).map trimChars

/-- The `Account` struct (lines 38-49).  The `f64` balance payload is
modelled as a Lean `Float`; no arithmetic is ever done on it. -/
structure Account where
  name : String
  description : Option String
  currency : Option String
  balance : Option Float
  book_id : Option Int

/-- The account record `main` pushes for a matching line (lines 214-220). -/
def mkAccount (book_id : Int) (name : List Char) : Account where
  name := String.mk name
  description := some "Imported from ledger file"
  currency := some "INR"
  balance := some 0.0
  book_id := some book_id

/-- The whole parsing loop of `main`: one account per matching line, in
file order. -/
def extractAccounts (book_id : Int) (lines : List (List Char)) : List Account :=
  lines.filterMap (fun l => (extractName l).map (mkAccount book_id))

/-- An HTTP status: numeric code plus the `canonical_reason()` of the
`http` crate, which is `None` for unassigned codes. -/
structure Status where
  code : Nat
  reason : Option String
  deriving DecidableEq

/-- `StatusCode::is_success()`: 200 ≤ code ≤ 299. -/
def Status.isSuccess (s : Status) : Bool :=
  200 ≤ s.code && s.code < 300

/-- `Display` of `http::StatusCode`: code, space, canonical reason or the
literal unknown marker. -/
def statusDisplay (s : Status) : String :=
  toString s.code ++ " " ++ s.reason.getD "<unknown status code>"

/-- `status.canonical_reason().unwrap_or("Unknown")` as used in the two
`bail!` calls. -/
def reasonOrUnknown (s : Status) : String :=
  s.reason.getD "Unknown"

/-- The `Book` record deserialized from the books-listing response
(lines 159-164). -/
structure Book where
  id : Int
  name : String
  deriving DecidableEq

/-- The `AccountResponse` record (lines 147-152). -/
structure AccountResponse where
  id : Int
  name : String
  deriving DecidableEq

/-- The `ApiResponse` record (lines 140-145). -/
structure ApiResponse where
  message : String
  account : AccountResponse
  deriving DecidableEq

/-- What the HTTP layer yields for the books-listing GET: a transport
failure, or a response with status, body text and the result of the serde
parse of the body as `Vec<Book>` (a library call, taken as an oracle). -/
inductive BooksHttp where
  | transportError
  | response (status : Status) (body : String) (parsedBooks : Option (List Book))

/-- The linear scan of `get_book_id_by_name` (lines 284-290): first book
whose `name` equals the requested name, else the not-found `bail!`. -/
def findBook : List Book → String → Except String Int
  | [], book_name => .error ("No book found with name: " ++ book_name)
  | b :: rest, book_name =>
    if b.name = book_name then .ok b.id else findBook rest book_name

/-- `get_book_id_by_name` (lines 251-291).  Error strings are the anyhow
messages as `main` would display them (outermost context only). -/
def get_book_id_by_name (h : BooksHttp) (book_name : String) : Except String Int :=
  match h with
  | .transportError => .error "Failed to send API request to fetch books"
  | .response status body parsedBooks =>
    if !status.isSuccess then
      .error ("API error when fetching books (" ++ toString status.code ++ " " ++
        reasonOrUnknown status ++ "): " ++ body)
    else
      match parsedBooks with
      | none => .error "Failed to parse books response"
      | some books => findBook books book_name

/-- What the HTTP layer yields for one account-creation POST: a transport
failure, or a response with status, body text (`text().unwrap_or_default()`,
so a failed body read is the empty string), the result of parsing the body
as `ApiResponse`, and the result of parsing it as `ErrorResponse`
(`{ error: String }`) — both serde library calls, taken as oracles. -/
inductive CreateHttp where
  | transportError
  | response (status : Status) (body : String)
      (parsedOk : Option ApiResponse) (parsedErr : Option String)

/-- `create_account` (lines 293-340). -/
def create_account : CreateHttp → Except String ApiResponse
  | .transportError => .error "Failed to send API request"
  | .response status body parsedOk parsedErr =>
    if status.isSuccess then
      match parsedOk with
      | some r => .ok r
      | none => .error "Failed to parse API response"
    else
      let error_text :=
        if body ≠ "" then
          match parsedErr with
          | some e => e
          | none => "Error response: " ++ body
        else
          "HTTP Error: " ++ statusDisplay status ++ " (no response body)"
      .error ("API error (" ++ toString status.code ++ " " ++ reasonOrUnknown status ++
        "): " ++ error_text)

/-- Observable events of a run: the two kinds of network call, the file
open, and the printed lines (`out` = stdout, `errOut` = stderr). -/
inductive Event where
  | booksCall
  | openFile
  | createCall (name : String)
  | out (s : String)
  | errOut (s : String)
  deriving DecidableEq

/-- The outcome line the creation loop prints for one account
(lines 238-245). -/
def outcomeEvent (a : Account) : Except String ApiResponse → Event
  | .ok r => .out ("Created account: " ++ r.account.name ++ " (ID: " ++
      toString r.account.id ++ ")")
  | .error e => .errOut ("Error creating account \x27" ++ a.name ++ "\x27: " ++ e)

/-- The creation loop of `main` (lines 237-246): one POST and one outcome
line per account, in order; `oracle k` is what the HTTP layer returns for
the k-th POST of the run. -/
def processFrom (oracle : Nat → CreateHttp) (i : Nat) : List Account → List Event
  | [] => []
  | a :: rest =>
    Event.createCall a.name ::
    outcomeEvent a (create_account (oracle i)) ::
    processFrom oracle (i + 1) rest

/-- Inputs of one run: what the books GET returns, the requested book
name, the file contents (`none` = the open failed), the dry-run flag, and
the per-POST oracle. -/
structure Env where
  booksHttp : BooksHttp
  book_name : String
  fileLines : Option (List (List Char))
  dry_run : Bool
  createHttp : Nat → CreateHttp

/-- `main` (lines 166-249) as an event trace plus the overall success flag
(`Ok(())` versus an `Err` return).  The order is the code's: book
resolution first, then the file open and the parsing loop, then the
empty-check, then the dry-run check, then the creation loop. -/
def mainRun (env : Env) : List Event × Bool :=
  match get_book_id_by_name env.booksHttp env.book_name with
  | .error _ => ([Event.booksCall], false)
  | .ok book_id =>
    match env.fileLines with
    | none => ([Event.booksCall], false)
    | some lines =>
      let accounts := extractAccounts book_id lines
      if accounts.isEmpty then
        ([Event.booksCall, Event.openFile, Event.out "No accounts found in the file."], true)
      else
        let pre := [Event.booksCall, Event.openFile,
          Event.out ("Found " ++ toString accounts.length ++ " accounts in the file.")]
        if env.dry_run then
          (pre ++ [Event.out "Dry run mode enabled. Not creating accounts in Kanakku."], true)
        else
          (pre ++ processFrom env.createHttp 0 accounts, true)

/-- A JSON value, for the request-body serialization of `Account`. -/
inductive Json where
  | null
  | str (s : String)
  | num (x : Float)
  | int (n : Int)
  | obj (fields : List (String × Json))

/-- serde serialization of `Account` (lines 38-49): `name` always, each
optional field only when `Some` (`skip_serializing_if = "Option::is_none"`). -/
def serializeAccount (a : Account) : List (String × Json) :=
  [("name", Json.str a.name)] ++
  (match a.description with | none => [] | some d => [("description", Json.str d)]) ++
  (match a.currency with | none => [] | some c => [("currency", Json.str c)]) ++
  (match a.balance with | none => [] | some b => [("balance", Json.num b)]) ++
  (match a.book_id with | none => [] | some i => [("book_id", Json.int i)])

end Kanakku

namespace Kanakku

/-! ## Helper lemmas about the regex matcher -/

/-- Dropping whitespace from the front of a list that begins with an
all-whitespace block is the same as dropping it from the rest. -/
theorem dropWhile_ws_append (w r : List Char) (hw : ∀ c ∈ w, isWs c = true) :
    (w ++ r).dropWhile isWs = r.dropWhile isWs := by
  induction w with
  | nil => rfl
  | cons c w ih =>
    have hc : isWs c = true := hw c (List.mem_cons_self c w)
    simp only [List.cons_append, List.dropWhile_cons, hc, if_true]
    exact ih (fun d hd => hw d (List.mem_cons_of_mem c hd))

/-- Trimming is unaffected by an all-whitespace block in front. -/
theorem trimChars_ws_append (w r : List Char) (hw : ∀ c ∈ w, isWs c = true) :
    trimChars (w ++ r) = trimChars r := by
  unfold trimChars
  rw [dropWhile_ws_append w r hw]

/-- Soundness of the `\s+(.+)$` matcher: a successful match decomposes the
text into a non-empty whitespace block followed by the non-empty,
newline-free capture. -/
theorem matchWsCap_sound : ∀ (s cap : List Char), matchWsCap s = some cap →
    ∃ w, s = w ++ cap ∧ w ≠ [] ∧ (∀ c ∈ w, isWs c = true) ∧ cap ≠ [] ∧
      (∀ c ∈ cap, c ≠ '\n') := by
  intro s
  induction s with
  | nil => intro cap h; simp [matchWsCap] at h
  | cons c rest ih =>
    intro cap h
    simp only [matchWsCap] at h
    by_cases hc : isWs c = true
    · rw [if_pos hc] at h
      cases hr : matchWsCap rest with
      | some cap2 =>
        rw [hr] at h
        simp only [Option.some.injEq] at h
        subst h
        obtain ⟨w, hsplit, hwne, hwall, hcapne, hcapn⟩ := ih cap2 hr
        refine ⟨c :: w, ?_, by simp, ?_, hcapne, hcapn⟩
        · rw [List.cons_append, hsplit]
        · intro d hd
          rcases List.mem_cons.mp hd with h1 | h2
          · exact h1 ▸ hc
          · exact hwall d h2
      | none =>
        rw [hr] at h
        by_cases he : rest.isEmpty
        · rw [if_pos he] at h; exact absurd h (by simp)
        · rw [if_neg he] at h
          by_cases hn : rest.all (fun d => d != '\n') = true
          · rw [if_pos hn] at h
            simp only [Option.some.injEq] at h
            subst h
            refine ⟨[c], rfl, by simp, ?_, ?_, ?_⟩
            · intro d hd
              rcases List.mem_singleton.mp hd with rfl
              exact hc
            · intro hcap; rw [hcap] at he; exact he rfl
            · intro d hd
              have := List.all_eq_true.mp hn d hd
              simpa using this
          · rw [if_neg hn] at h; exact absurd h (by simp)
    · rw [if_neg hc] at h; exact absurd h (by simp)

/-- Completeness of the `\s+(.+)$` matcher: any decomposition into a
non-empty whitespace block and a non-empty newline-free remainder makes
the matcher succeed. -/
theorem matchWsCap_isSome : ∀ (w r : List Char), w ≠ [] →
    (∀ c ∈ w, isWs c = true) → r ≠ [] → (∀ c ∈ r, c ≠ '\n') →
    (matchWsCap (w ++ r)).isSome := by
  intro w
  induction w with
  | nil => intro r h; exact absurd rfl h
  | cons c w ih =>
    intro r _ hw hr hn
    have hc : isWs c = true := hw c (List.mem_cons_self c w)
    rw [List.cons_append]
    simp only [matchWsCap, if_pos hc]
    cases w with
    | nil =>
      simp only [List.nil_append]
      cases hm : matchWsCap r with
      | some cap => rfl
      | none =>
        have h1 : r.isEmpty = false := by
          cases r with
          | nil => exact absurd rfl hr
          | cons a l => rfl
        have h2 : r.all (fun d => d != '\n') = true := by
          refine List.all_eq_true.mpr ?_
          intro d hd
          simpa using hn d hd
        simp [h1, h2]
    | cons d w' =>
      have hs : (matchWsCap (d :: (w' ++ r))).isSome := by
        have := ih r (by simp) (fun e he => hw e (List.mem_cons_of_mem c he)) hr hn
        rwa [List.cons_append] at this
      obtain ⟨cap, hcap⟩ := Option.isSome_iff_exists.mp hs
      simp only [List.cons_append, hcap, Option.isSome_some]

/-- A line admits a capture for `^account\s+(.+)$`: it starts with the
literal `account`, and the remainder splits into at least one whitespace
character followed by a non-empty newline-free tail. -/
def ValidCapture (line : List Char) : Prop :=
  line.take 7 = "account".toList ∧
  ∃ w r, line.drop 7 = w ++ r ∧ w ≠ [] ∧ (∀ c ∈ w, isWs c = true) ∧ r ≠ [] ∧
    (∀ c ∈ r, c ≠ '\n')

end Kanakku

namespace Kanakku

/-! ## C2: the account extractor -/

/-- C2 (amended): for every input line, if the line matches
`^account\s+(.+)$` the extractor emits exactly one account name, namely
the capture trimmed of leading/trailing whitespace — even when that
trimmed capture is empty; for every non-matching line it emits nothing.
The match condition and the emitted name are characterized declaratively:
a line matches iff it starts with the literal `account` followed by at
least one whitespace character and a non-empty newline-free remainder,
and the emitted name is the trim of everything after the literal. -/
theorem C2_extractor_amended (line name : List Char) :
    extractName line = some name ↔
      ValidCapture line ∧ name = trimChars (line.drop 7) := by
  constructor
  · intro h
    simp only [extractName, Option.map_eq_some'] at h
    obtain ⟨cap, hcap, hname⟩ := h
    simp only [matchAccountLine] at hcap
    by_cases hpre : line.take 7 = "account".toList
    · rw [if_pos hpre] at hcap
      obtain ⟨w, hsplit, hwne, hwall, hcapne, hcapn⟩ := matchWsCap_sound _ _ hcap
      refine ⟨⟨hpre, w, cap, hsplit, hwne, hwall, hcapne, hcapn⟩, ?_⟩
      rw [← hname, hsplit, trimChars_ws_append w cap hwall]
    · rw [if_neg hpre] at hcap
      exact absurd hcap (by simp)
  · rintro ⟨⟨hpre, w, r, hsplit, hwne, hwall, hrne, hrn⟩, hname⟩
    have hsome : (matchWsCap (line.drop 7)).isSome := by
      rw [hsplit]
      exact matchWsCap_isSome w r hwne hwall hrne hrn
    obtain ⟨cap, hcap⟩ := Option.isSome_iff_exists.mp hsome
    obtain ⟨w2, hsplit2, _, hwall2, _, _⟩ := matchWsCap_sound _ _ hcap
    simp only [extractName, matchAccountLine, if_pos hpre, hcap, Option.map_some',
      Option.some.injEq]
    rw [hname, hsplit2, trimChars_ws_append w2 cap hwall2]

/-- Witness for C2: the line `account Assets` yields exactly the name
`Assets`, via the declarative characterization. -/
theorem C2_extractor_amended_witness :
    extractName ("account Assets".toList) = some ("Assets".toList) := by
  refine (C2_extractor_amended ("account Assets".toList) ("Assets".toList)).mpr ?_
  exact ⟨⟨by decide, [' '], "Assets".toList, by decide, by decide, by decide, by decide⟩,
    by decide⟩

/-- Counterexample to C2 as stated: the line `account` followed by two
spaces matches the regex (capture: one space) and its trimmed capture is
empty, yet the extractor still emits one account — with an empty name —
where the claim says such a line produces nothing. -/
theorem C2_counterexample :
    matchAccountLine ("account  ".toList) = some [' '] ∧
    trimChars [' '] = [] ∧
    (extractAccounts 1 ["account  ".toList]).map Account.name = [""] := by
  refine ⟨by decide, by decide, by decide⟩

end Kanakku

namespace Kanakku

/-! ## C3 and C5: classification of creation responses -/

/-- The `anyhow::bail!` wrapper of `create_account`: numeric status code,
reason phrase, and the case-determined error text. -/
def apiErrorWrap (s : Status) (t : String) : String :=
  "API error (" ++ toString s.code ++ " " ++ reasonOrUnknown s ++ "): " ++ t

/-- C3: for every non-2xx creation response the failure message is
determined by exactly three cases — a non-empty body parsing as
`\x7b "error": <string> \x7d` yields that string; a non-empty body that does
not parse into that shape yields the raw body behind an `Error response:`
label; an empty body yields an `HTTP Error:` text naming the status with a
`(no response body)` note — and in all three cases the failure carries the
numeric status code and its reason phrase via the `API error` wrapper. -/
theorem C3_error_taxonomy (status : Status) (body : String)
    (parsedOk : Option ApiResponse) (parsedErr : Option String)
    (h : status.isSuccess = false) :
    (∀ e, body ≠ "" → parsedErr = some e →
      create_account (.response status body parsedOk parsedErr) =
        .error (apiErrorWrap status e)) ∧
    (body ≠ "" → parsedErr = none →
      create_account (.response status body parsedOk parsedErr) =
        .error (apiErrorWrap status ("Error response: " ++ body))) ∧
    (body = "" →
      create_account (.response status body parsedOk parsedErr) =
        .error (apiErrorWrap status
          ("HTTP Error: " ++ statusDisplay status ++ " (no response body)"))) := by
  refine ⟨?_, ?_, ?_⟩
  · intro e hbody hperr
    simp [create_account, h, hperr, hbody, apiErrorWrap]
  · intro hbody hperr
    simp [create_account, h, hperr, hbody, apiErrorWrap]
  · intro hbody
    simp [create_account, h, hbody, apiErrorWrap]

/-- Witness for C3: the three cases at concrete 400/500 responses, with
the concrete failure strings fully evaluated. -/
theorem C3_error_taxonomy_witness :
    Status.isSuccess ⟨400, some "Bad Request"⟩ = false ∧
    create_account (.response ⟨400, some "Bad Request"⟩
        "\x7b\"error\":\"Bad request\"\x7d" none (some "Bad request")) =
      .error "API error (400 Bad Request): Bad request" ∧
    create_account (.response ⟨400, some "Bad Request"⟩ "not json" none none) =
      .error "API error (400 Bad Request): Error response: not json" ∧
    create_account (.response ⟨500, some "Internal Server Error"⟩ "" none none) =
      .error
        "API error (500 Internal Server Error): HTTP Error: 500 Internal Server Error (no response body)" := by
  refine ⟨rfl, ?_, ?_, ?_⟩
  · exact ((C3_error_taxonomy ⟨400, some "Bad Request"⟩ _ none _ rfl).1
      "Bad request" (by decide) rfl).trans (by rfl)
  · exact ((C3_error_taxonomy ⟨400, some "Bad Request"⟩ _ none none rfl).2.1
      (by decide) rfl).trans (by rfl)
  · exact ((C3_error_taxonomy ⟨500, some "Internal Server Error"⟩ _ none none rfl).2.2
      rfl).trans (by rfl)

/-- C5: for every 2xx creation response, a body that parses as
`ApiResponse` yields success carrying the created account record (whose
`id` and `name` are then reported), and a 2xx body that fails to parse is
itself a failure surfaced with the parse-error message. -/
theorem C5_success_cases (status : Status) (body : String)
    (parsedOk : Option ApiResponse) (parsedErr : Option String)
    (h : status.isSuccess = true) :
    (∀ r, parsedOk = some r →
      create_account (.response status body parsedOk parsedErr) = .ok r) ∧
    (parsedOk = none →
      create_account (.response status body parsedOk parsedErr) =
        .error "Failed to parse API response") := by
  constructor
  · intro r hr
    simp [create_account, h, hr]
  · intro hr
    simp [create_account, h, hr]

/-- Witness for C5: a 200 response whose body parses as
`message = Account created, account = (id 42, name Test)` succeeds and
reports id 42 and name `Test`; a 200 response with an unparsable body is
the parse-error failure. -/
theorem C5_success_cases_witness :
    Status.isSuccess ⟨200, some "OK"⟩ = true ∧
    create_account (.response ⟨200, some "OK"⟩ "body"
        (some ⟨"Account created", ⟨42, "Test"⟩⟩) none) =
      .ok ⟨"Account created", ⟨42, "Test"⟩⟩ ∧
    (ApiResponse.mk "Account created" ⟨42, "Test"⟩).account.id = 42 ∧
    (ApiResponse.mk "Account created" ⟨42, "Test"⟩).account.name = "Test" ∧
    create_account (.response ⟨200, some "OK"⟩ "garbage" none none) =
      .error "Failed to parse API response" := by
  refine ⟨rfl, ?_, rfl, rfl, ?_⟩
  · exact (C5_success_cases ⟨200, some "OK"⟩ "body" _ none rfl).1
      ⟨"Account created", ⟨42, "Test"⟩⟩ rfl
  · exact (C5_success_cases ⟨200, some "OK"⟩ "garbage" none none rfl).2 rfl

/-! ## C4: book resolution -/

/-- `findBook` returns the id of the first exact match. -/
theorem findBook_first : ∀ (books : List Book) (book_name : String) (i : Nat)
    (hi : i < books.length), (books.get ⟨i, hi⟩).name = book_name →
    (∀ j (hj : j < i), (books.get ⟨j, Nat.lt_trans hj hi⟩).name ≠ book_name) →
    findBook books book_name = .ok (books.get ⟨i, hi⟩).id := by
  intro books
  induction books with
  | nil => intro n i hi; exact absurd hi (by simp)
  | cons b rest ih =>
    intro n i hi hname hfirst
    cases i with
    | zero =>
      simp only [List.get] at hname ⊢
      simp [findBook, hname]
    | succ i =>
      have hb : b.name ≠ n := by
        have := hfirst 0 (Nat.succ_pos i)
        simpa using this
      have hi' : i < rest.length := Nat.lt_of_succ_lt_succ (by simpa using hi)
      have hfirst' : ∀ j (hj : j < i), (rest.get ⟨j, Nat.lt_trans hj hi'⟩).name ≠ n := by
        intro j hj
        have := hfirst (j + 1) (Nat.succ_lt_succ hj)
        simpa [List.get_cons_succ] using this
      have hname' : (rest.get ⟨i, hi'⟩).name = n := by
        simpa [List.get_cons_succ] using hname
      have := ih n i hi' hname' hfirst'
      simp [findBook, hb, this, List.get_cons_succ]

/-- `findBook` fails with the not-found message when no name matches. -/
theorem findBook_not_found : ∀ (books : List Book) (book_name : String),
    (∀ b ∈ books, b.name ≠ book_name) →
    findBook books book_name = .error ("No book found with name: " ++ book_name) := by
  intro books
  induction books with
  | nil => intro n _; rfl
  | cons b rest ih =>
    intro n h
    have hb : b.name ≠ n := h b (List.mem_cons_self b rest)
    simp only [findBook, if_neg hb]
    exact ih n (fun x hx => h x (List.mem_cons_of_mem b hx))

/-- C4: the resolver scans the deserialized books list in order and
returns the id of the first record whose name exactly equals the requested
name; with no exact match it fails with a not-found error naming the
requested book; and on a 2xx listing response with a parsable body,
`get_book_id_by_name` is exactly this scan. -/
theorem C4_book_resolution (books : List Book) (book_name : String) :
    (∀ i (hi : i < books.length), (books.get ⟨i, hi⟩).name = book_name →
      (∀ j (hj : j < i), (books.get ⟨j, Nat.lt_trans hj hi⟩).name ≠ book_name) →
      findBook books book_name = .ok (books.get ⟨i, hi⟩).id) ∧
    ((∀ b ∈ books, b.name ≠ book_name) →
      findBook books book_name = .error ("No book found with name: " ++ book_name)) ∧
    (∀ status body, status.isSuccess = true →
      get_book_id_by_name (.response status body (some books)) book_name =
        findBook books book_name) := by
  refine ⟨fun i hi h1 h2 => findBook_first books book_name i hi h1 h2,
    fun h => findBook_not_found books book_name h, ?_⟩
  intro status body h
  simp [get_book_id_by_name, h]

/-- Witness for C4: with two books named `MyBook` the first one (id 2)
wins; a list whose only name merely contains `MyBook` as a proper prefix
is a not-found failure (no partial matching); and the 2xx path reduces to
the scan. -/
theorem C4_book_resolution_witness :
    findBook [⟨1, "Alpha"⟩, ⟨2, "MyBook"⟩, ⟨3, "MyBook"⟩] "MyBook" = .ok 2 ∧
    findBook [⟨1, "MyBook2"⟩] "MyBook" =
      .error "No book found with name: MyBook" ∧
    get_book_id_by_name (.response ⟨200, some "OK"⟩ "" (some [⟨2, "MyBook"⟩])) "MyBook" =
      findBook [⟨2, "MyBook"⟩] "MyBook" := by
  refine ⟨?_, ?_, ?_⟩
  · exact ((C4_book_resolution [⟨1, "Alpha"⟩, ⟨2, "MyBook"⟩, ⟨3, "MyBook"⟩] "MyBook").1
      1 (by decide) (by decide)
      (fun j hj => by
        have hj0 : j = 0 := by omega
        subst hj0
        exact (by decide : ("Alpha" : String) ≠ "MyBook"))).trans (by rfl)
  · exact (C4_book_resolution [⟨1, "MyBook2"⟩] "MyBook").2.1 (by decide)
  · exact (C4_book_resolution [⟨2, "MyBook"⟩] "MyBook").2.2 ⟨200, some "OK"⟩ "" rfl

end Kanakku

namespace Kanakku

/-! ## Helper lemmas and concrete environments for the run-level claims -/

/-- The creation loop emits exactly two events per account. -/
theorem processFrom_length (oracle : Nat → CreateHttp) :
    ∀ (accounts : List Account) (i : Nat),
      (processFrom oracle i accounts).length = 2 * accounts.length := by
  intro accounts
  induction accounts with
  | nil => intro i; rfl
  | cons a rest ih =>
    intro i
    simp only [processFrom, List.length_cons, ih (i + 1)]
    omega

/-- The k-th account's two events sit at positions 2k and 2k+1 of the
creation-loop trace: its POST, then its outcome line, fed by the k-th
oracle answer. -/
theorem processFrom_get (oracle : Nat → CreateHttp) :
    ∀ (accounts : List Account) (i k : Nat) (hk : k < accounts.length),
      (processFrom oracle i accounts).get? (2 * k) =
        some (Event.createCall (accounts.get ⟨k, hk⟩).name) ∧
      (processFrom oracle i accounts).get? (2 * k + 1) =
        some (outcomeEvent (accounts.get ⟨k, hk⟩) (create_account (oracle (i + k)))) := by
  intro accounts
  induction accounts with
  | nil => intro i k hk; exact absurd hk (by simp)
  | cons a rest ih =>
    intro i k hk
    cases k with
    | zero =>
      constructor
      · rfl
      · simp [processFrom]
    | succ k =>
      have hk' : k < rest.length := Nat.lt_of_succ_lt_succ (by simpa using hk)
      obtain ⟨g1, g2⟩ := ih (i + 1) k hk'
      constructor
      · rw [show 2 * (k + 1) = 2 * k + 1 + 1 by omega]
        simp only [processFrom, List.get?_cons_succ]
        simpa [List.get_cons_succ] using g1
      · rw [show 2 * (k + 1) + 1 = 2 * k + 1 + 1 + 1 by omega]
        simp only [processFrom, List.get?_cons_succ]
        rw [show i + 1 + k = i + (k + 1) by omega] at g2
        simpa [List.get_cons_succ] using g2

/-- A run whose books listing succeeds (one book `B`, id 1) over a file
with no matching line. -/
def envEmptyFile : Env where
  booksHttp := .response ⟨200, some "OK"⟩ "" (some [⟨1, "B"⟩])
  book_name := "B"
  fileLines := some ["; just a comment".toList]
  dry_run := false
  createHttp := fun _ => .transportError

/-- The ledger lines of the two-account environments: accounts `X` and
`Y` around a non-matching comment line. -/
def linesTwo : List (List Char) :=
  ["account X".toList, "; comment".toList, "account Y".toList]

/-- A run over `linesTwo` whose first creation fails with a 400 and whose
second succeeds. -/
def envTwoAccounts : Env where
  booksHttp := .response ⟨200, some "OK"⟩ "" (some [⟨1, "B"⟩])
  book_name := "B"
  fileLines := some linesTwo
  dry_run := false
  createHttp := fun k =>
    if k = 0 then
      .response ⟨400, some "Bad Request"⟩ "\x7b\"error\":\"Bad request\"\x7d"
        none (some "Bad request")
    else
      .response ⟨200, some "OK"⟩ "ok body" (some ⟨"Account created", ⟨42, "Y"⟩⟩) none

/-- A dry run over `linesTwo`. -/
def envDryRun : Env where
  booksHttp := .response ⟨200, some "OK"⟩ "" (some [⟨1, "B"⟩])
  book_name := "B"
  fileLines := some linesTwo
  dry_run := true
  createHttp := fun _ => .transportError

/-- A dry run whose books listing itself fails with a 500. -/
def envBooksFail : Env where
  booksHttp := .response ⟨500, some "Internal Server Error"⟩ "oops" none
  book_name := "B"
  fileLines := some ["account X".toList]
  dry_run := true
  createHttp := fun _ => .transportError

end Kanakku

namespace Kanakku

/-- Run shape when book resolution fails: the books call happened, nothing
else did, and the run is a failure. -/
theorem mainRun_error (env : Env) (e : String)
    (hb : get_book_id_by_name env.booksHttp env.book_name = .error e) :
    mainRun env = ([Event.booksCall], false) := by
  unfold mainRun
  rw [hb]

/-- Run shape when book resolution succeeds but the file cannot be
opened. -/
theorem mainRun_openFail (env : Env) (book_id : Int)
    (hb : get_book_id_by_name env.booksHttp env.book_name = .ok book_id)
    (hf : env.fileLines = none) :
    mainRun env = ([Event.booksCall], false) := by
  unfold mainRun
  rw [hb, hf]

/-- Run shape when the file yields no account: the no-accounts report and
a successful exit, after the books call and the file open. -/
theorem mainRun_noAccounts (env : Env) (book_id : Int) (lines : List (List Char))
    (hb : get_book_id_by_name env.booksHttp env.book_name = .ok book_id)
    (hf : env.fileLines = some lines)
    (he : extractAccounts book_id lines = []) :
    mainRun env = ([Event.booksCall, Event.openFile,
      Event.out "No accounts found in the file."], true) := by
  unfold mainRun
  rw [hb, hf]
  simp [he]

/-- Run shape of a dry run with at least one account: the count report,
the dry-run notice, success, and no creation call. -/
theorem mainRun_dry (env : Env) (book_id : Int) (lines : List (List Char))
    (hb : get_book_id_by_name env.booksHttp env.book_name = .ok book_id)
    (hf : env.fileLines = some lines)
    (hne : extractAccounts book_id lines ≠ [])
    (hd : env.dry_run = true) :
    mainRun env = ([Event.booksCall, Event.openFile,
      Event.out ("Found " ++ toString (extractAccounts book_id lines).length ++
        " accounts in the file."),
      Event.out "Dry run mode enabled. Not creating accounts in Kanakku."], true) := by
  have he : (extractAccounts book_id lines).isEmpty = false := by simpa using hne
  unfold mainRun
  rw [hb, hf]
  simp [he, hd]

/-- Run shape of a wet run with at least one account: the count report
followed by the creation loop, and a successful exit regardless of the
oracle's per-account answers. -/
theorem mainRun_create (env : Env) (book_id : Int) (lines : List (List Char))
    (hb : get_book_id_by_name env.booksHttp env.book_name = .ok book_id)
    (hf : env.fileLines = some lines)
    (hne : extractAccounts book_id lines ≠ [])
    (hd : env.dry_run = false) :
    mainRun env = (Event.booksCall :: Event.openFile ::
      Event.out ("Found " ++ toString (extractAccounts book_id lines).length ++
        " accounts in the file.") ::
      processFrom env.createHttp 0 (extractAccounts book_id lines), true) := by
  have he : (extractAccounts book_id lines).isEmpty = false := by simpa using hne
  unfold mainRun
  rw [hb, hf]
  simp [he, hd]

/-! ## C1: file parsing versus network calls -/

/-- Counterexample to C1 as stated: a run over a file with zero matching
lines does report that no accounts were found and does terminate
successfully — but it performs a network call all the same: the books
listing is already in the trace, where the claim says no network call at
all is performed. -/
theorem C1_counterexample :
    Event.booksCall ∈ (mainRun envEmptyFile).1 ∧
    Event.out "No accounts found in the file." ∈ (mainRun envEmptyFile).1 ∧
    (mainRun envEmptyFile).2 = true := by
  refine ⟨by decide, by decide, by decide⟩

/-- C1 (amended): the ledger file is parsed completely before any
account-creation call — in every trace the file open precedes every
creation call — and for every input file with zero matching lines (given
book resolution succeeded) the run reports that no accounts were found
and terminates successfully with no account-creation call; book
resolution, however, is a network call issued before the file is
parsed. -/
theorem C1_parse_before_create (env : Env) :
    (∀ n, Event.createCall n ∈ (mainRun env).1 →
      ∃ l₁ l₂, (mainRun env).1 = l₁ ++ Event.openFile :: l₂ ∧
        ∀ m, Event.createCall m ∉ l₁) ∧
    (∀ book_id lines, get_book_id_by_name env.booksHttp env.book_name = .ok book_id →
      env.fileLines = some lines → extractAccounts book_id lines = [] →
      mainRun env = ([Event.booksCall, Event.openFile,
        Event.out "No accounts found in the file."], true)) := by
  constructor
  · intro n hn
    rcases hb : get_book_id_by_name env.booksHttp env.book_name with e | book_id
    · rw [mainRun_error env e hb] at hn
      simp at hn
    · rcases hf : env.fileLines with _ | lines
      · rw [mainRun_openFail env book_id hb hf] at hn
        simp at hn
      · rcases he : extractAccounts book_id lines with _ | ⟨a, rest⟩
        · rw [mainRun_noAccounts env book_id lines hb hf he] at hn
          simp at hn
        · have hne : extractAccounts book_id lines ≠ [] := by rw [he]; simp
          rcases hd : env.dry_run with _ | _
          · refine ⟨[Event.booksCall],
              Event.out ("Found " ++ toString (extractAccounts book_id lines).length ++
                " accounts in the file.") ::
                processFrom env.createHttp 0 (extractAccounts book_id lines), ?_, ?_⟩
            · rw [mainRun_create env book_id lines hb hf hne hd]
              rfl
            · intro m
              simp
          · rw [mainRun_dry env book_id lines hb hf hne hd] at hn
            simp at hn
  · intro book_id lines hb hf he
    exact mainRun_noAccounts env book_id lines hb hf he

/-- Witness for C1 (amended): in the two-account run the creation calls
all come after the file open, and the empty-file run ends successfully
with the no-accounts report. -/
theorem C1_parse_before_create_witness :
    (Event.createCall "X" ∈ (mainRun envTwoAccounts).1 ∧
      ∃ l₁ l₂, (mainRun envTwoAccounts).1 = l₁ ++ Event.openFile :: l₂ ∧
        ∀ m, Event.createCall m ∉ l₁) ∧
    (get_book_id_by_name envEmptyFile.booksHttp envEmptyFile.book_name = .ok 1 ∧
      envEmptyFile.fileLines = some ["; just a comment".toList] ∧
      extractAccounts 1 ["; just a comment".toList] = [] ∧
      mainRun envEmptyFile = ([Event.booksCall, Event.openFile,
        Event.out "No accounts found in the file."], true)) := by
  constructor
  · exact ⟨by decide, (C1_parse_before_create envTwoAccounts).1 "X" (by decide)⟩
  · exact ⟨rfl, rfl, rfl,
      (C1_parse_before_create envEmptyFile).2 1 ["; just a comment".toList] rfl rfl rfl⟩

/-! ## C6: per-account processing and batch robustness -/

/-- C6: in a wet run the extracted accounts are processed one at a time
strictly in file order — the k-th account's creation call sits at position
2k of the loop trace and its outcome line (created-with-id or
error-with-reason, from the k-th oracle answer) at position 2k+1, the loop
trace has exactly two events per account — and the run terminates with
overall success whatever the per-account outcomes are. -/
theorem C6_batch_robustness (env : Env) (book_id : Int) (lines : List (List Char))
    (hb : get_book_id_by_name env.booksHttp env.book_name = .ok book_id)
    (hf : env.fileLines = some lines)
    (hd : env.dry_run = false)
    (hne : extractAccounts book_id lines ≠ []) :
    (mainRun env).2 = true ∧
    (mainRun env).1 = Event.booksCall :: Event.openFile ::
      Event.out ("Found " ++ toString (extractAccounts book_id lines).length ++
        " accounts in the file.") ::
      processFrom env.createHttp 0 (extractAccounts book_id lines) ∧
    (processFrom env.createHttp 0 (extractAccounts book_id lines)).length =
      2 * (extractAccounts book_id lines).length ∧
    ∀ k (hk : k < (extractAccounts book_id lines).length),
      (processFrom env.createHttp 0 (extractAccounts book_id lines)).get? (2 * k) =
        some (Event.createCall ((extractAccounts book_id lines).get ⟨k, hk⟩).name) ∧
      (processFrom env.createHttp 0 (extractAccounts book_id lines)).get? (2 * k + 1) =
        some (outcomeEvent ((extractAccounts book_id lines).get ⟨k, hk⟩)
          (create_account (env.createHttp k))) := by
  have hmain := mainRun_create env book_id lines hb hf hne hd
  refine ⟨by rw [hmain], by rw [hmain], processFrom_length env.createHttp _ 0, ?_⟩
  intro k hk
  have h := processFrom_get env.createHttp (extractAccounts book_id lines) 0 k hk
  simpa using h

/-- Witness for C6: the two-account run, whose first creation fails with a
400 and whose second succeeds, still ends successfully with both outcome
lines in order. -/
theorem C6_batch_robustness_witness :
    get_book_id_by_name envTwoAccounts.booksHttp envTwoAccounts.book_name = .ok 1 ∧
    envTwoAccounts.fileLines = some linesTwo ∧
    envTwoAccounts.dry_run = false ∧
    (extractAccounts 1 linesTwo).length = 2 ∧
    (mainRun envTwoAccounts).2 = true ∧
    (mainRun envTwoAccounts).1 =
      [Event.booksCall, Event.openFile, Event.out "Found 2 accounts in the file.",
       Event.createCall "X",
       Event.errOut "Error creating account \x27X\x27: API error (400 Bad Request): Bad request",
       Event.createCall "Y",
       Event.out "Created account: Y (ID: 42)"] := by
  have hne : extractAccounts 1 linesTwo ≠ [] := by
    intro h
    exact absurd (congrArg List.length h) (by decide)
  have h := C6_batch_robustness envTwoAccounts 1 linesTwo rfl rfl rfl hne
  exact ⟨rfl, rfl, rfl, rfl, h.1, by decide⟩

/-! ## C7: dry-run mode -/

/-- C7: a dry run over a file with at least one matching line reports the
count of discovered accounts, terminates successfully, and issues no
account-creation call (book resolution is still performed, as its result
feeds the `book_id` of the extracted records). -/
theorem C7_dry_run (env : Env) (book_id : Int) (lines : List (List Char))
    (hb : get_book_id_by_name env.booksHttp env.book_name = .ok book_id)
    (hf : env.fileLines = some lines)
    (hd : env.dry_run = true)
    (hne : extractAccounts book_id lines ≠ []) :
    mainRun env = ([Event.booksCall, Event.openFile,
      Event.out ("Found " ++ toString (extractAccounts book_id lines).length ++
        " accounts in the file."),
      Event.out "Dry run mode enabled. Not creating accounts in Kanakku."], true) ∧
    ∀ n, Event.createCall n ∉ (mainRun env).1 := by
  have hmain := mainRun_dry env book_id lines hb hf hne hd
  refine ⟨hmain, ?_⟩
  intro n
  rw [hmain]
  simp

/-- Witness for C7: a dry run over the two-account ledger reports two
accounts and its trace holds no creation call. -/
theorem C7_dry_run_witness :
    get_book_id_by_name envDryRun.booksHttp envDryRun.book_name = .ok 1 ∧
    envDryRun.fileLines = some linesTwo ∧
    envDryRun.dry_run = true ∧
    (extractAccounts 1 linesTwo).length = 2 ∧
    mainRun envDryRun = ([Event.booksCall, Event.openFile,
      Event.out "Found 2 accounts in the file.",
      Event.out "Dry run mode enabled. Not creating accounts in Kanakku."], true) ∧
    Event.createCall "X" ∉ (mainRun envDryRun).1 := by
  have hne : extractAccounts 1 linesTwo ≠ [] := by
    intro h
    exact absurd (congrArg List.length h) (by decide)
  have h := C7_dry_run envDryRun 1 linesTwo rfl rfl rfl hne
  exact ⟨rfl, rfl, rfl, rfl, h.1.trans (by rfl), h.2 "X"⟩

/-! ## C10: book resolution comes first, unconditionally -/

/-- C10: every run's very first event is the books-listing call — before
the file is opened and before the dry-run flag is consulted — and when
book resolution fails the run aborts as a failure whose whole trace is
that one call: the file is never opened, no line is read, and no creation
call is issued, dry run or not. -/
theorem C10_books_first (env : Env) :
    (mainRun env).1.head? = some Event.booksCall ∧
    (∀ e, get_book_id_by_name env.booksHttp env.book_name = .error e →
      mainRun env = ([Event.booksCall], false) ∧
      Event.openFile ∉ (mainRun env).1 ∧
      ∀ n, Event.createCall n ∉ (mainRun env).1) := by
  constructor
  · rcases hb : get_book_id_by_name env.booksHttp env.book_name with e | book_id
    · rw [mainRun_error env e hb]
      rfl
    · rcases hf : env.fileLines with _ | lines
      · rw [mainRun_openFail env book_id hb hf]
        rfl
      · rcases he : extractAccounts book_id lines with _ | ⟨a, rest⟩
        · rw [mainRun_noAccounts env book_id lines hb hf he]
          rfl
        · have hne : extractAccounts book_id lines ≠ [] := by rw [he]; simp
          rcases hd : env.dry_run with _ | _
          · rw [mainRun_create env book_id lines hb hf hne hd]
            rfl
          · rw [mainRun_dry env book_id lines hb hf hne hd]
            rfl
  · intro e he
    have hmain := mainRun_error env e he
    refine ⟨hmain, ?_, ?_⟩
    · rw [hmain]
      simp
    · intro n
      rw [hmain]
      simp

/-- Witness for C10: the run whose books listing answers 500 fails with
the books call as its entire trace, dry-run flag notwithstanding. -/
theorem C10_books_first_witness :
    get_book_id_by_name envBooksFail.booksHttp envBooksFail.book_name =
      .error "API error when fetching books (500 Internal Server Error): oops" ∧
    envBooksFail.dry_run = true ∧
    (mainRun envBooksFail).1.head? = some Event.booksCall ∧
    mainRun envBooksFail = ([Event.booksCall], false) ∧
    Event.openFile ∉ (mainRun envBooksFail).1 := by
  have h := (C10_books_first envBooksFail).2
    "API error when fetching books (500 Internal Server Error): oops" rfl
  exact ⟨rfl, rfl, (C10_books_first envBooksFail).1, h.1, h.2.1⟩

end Kanakku

namespace Kanakku

/-! ## C8 and C9: serialization of optional fields -/

/-- C8: serializing an account omits each optional field that is `none`
entirely — its key never appears — and no field of the serialized object
ever carries an explicit JSON null. -/
theorem C8_skip_absent_fields (a : Account) :
    (a.description = none → "description" ∉ (serializeAccount a).map Prod.fst) ∧
    (a.currency = none → "currency" ∉ (serializeAccount a).map Prod.fst) ∧
    (a.balance = none → "balance" ∉ (serializeAccount a).map Prod.fst) ∧
    (a.book_id = none → "book_id" ∉ (serializeAccount a).map Prod.fst) ∧
    (∀ p ∈ serializeAccount a, p.2 ≠ Json.null) := by
  obtain ⟨nm, d, cu, ba, bi⟩ := a
  refine ⟨?_, ?_, ?_, ?_, ?_⟩
  · rintro rfl
    cases cu <;> cases ba <;> cases bi <;> simp [serializeAccount]
  · rintro rfl
    cases d <;> cases ba <;> cases bi <;> simp [serializeAccount]
  · rintro rfl
    cases d <;> cases cu <;> cases bi <;> simp [serializeAccount]
  · rintro rfl
    cases d <;> cases cu <;> cases ba <;> simp [serializeAccount]
  · intro p hp
    cases d <;> cases cu <;> cases ba <;> cases bi <;>
      simp [serializeAccount] at hp <;>
      (try casesm* _ ∨ _) <;>
      simp_all

/-- Witness for C8: the all-absent account serializes to the sole `name`
field, with no key for any optional field. -/
theorem C8_skip_absent_fields_witness :
    serializeAccount ⟨"X", none, none, none, none⟩ = [("name", Json.str "X")] ∧
    "description" ∉ (serializeAccount ⟨"X", none, none, none, none⟩).map Prod.fst ∧
    "currency" ∉ (serializeAccount ⟨"X", none, none, none, none⟩).map Prod.fst ∧
    "balance" ∉ (serializeAccount ⟨"X", none, none, none, none⟩).map Prod.fst ∧
    "book_id" ∉ (serializeAccount ⟨"X", none, none, none, none⟩).map Prod.fst := by
  refine ⟨rfl, (C8_skip_absent_fields _).1 rfl, (C8_skip_absent_fields _).2.1 rfl,
    (C8_skip_absent_fields _).2.2.1 rfl, (C8_skip_absent_fields _).2.2.2.1 rfl⟩

/-- C9 (implicit): every account this implementation constructs carries
all four optional fields — the fixed description, the fixed `INR`
currency, the fixed zero balance, and the resolved book id — so its
serialized creation payload always holds exactly the five keys and the
omit-when-absent rule is never exercised by this program. -/
theorem C9_all_fields_present (book_id : Int) (lines : List (List Char)) (a : Account)
    (ha : a ∈ extractAccounts book_id lines) :
    a.description = some "Imported from ledger file" ∧
    a.currency = some "INR" ∧
    a.balance = some 0.0 ∧
    a.book_id = some book_id ∧
    (serializeAccount a).map Prod.fst =
      ["name", "description", "currency", "balance", "book_id"] := by
  simp only [extractAccounts, List.mem_filterMap] at ha
  obtain ⟨l, _, hl⟩ := ha
  cases he : extractName l with
  | none => rw [he] at hl; exact absurd hl (by simp)
  | some nm =>
    rw [he] at hl
    simp only [Option.map_some', Option.some.injEq] at hl
    subst hl
    exact ⟨rfl, rfl, rfl, rfl, rfl⟩

/-- Witness for C9: the account extracted from `account X` under book id 5
has all five serialized fields. -/
theorem C9_all_fields_present_witness :
    mkAccount 5 ("X".toList) ∈ extractAccounts 5 ["account X".toList] ∧
    (mkAccount 5 ("X".toList)).balance = some 0.0 ∧
    (mkAccount 5 ("X".toList)).book_id = some 5 ∧
    (serializeAccount (mkAccount 5 ("X".toList))).map Prod.fst =
      ["name", "description", "currency", "balance", "book_id"] := by
  have hm : mkAccount 5 ("X".toList) ∈ extractAccounts 5 ["account X".toList] := by
    show mkAccount 5 ("X".toList) ∈ [mkAccount 5 ("X".toList)]
    exact List.mem_singleton.mpr rfl
  have h := C9_all_fields_present 5 ["account X".toList] (mkAccount 5 ("X".toList)) hm
  exact ⟨hm, h.2.2.1, h.2.2.2.1, h.2.2.2.2⟩

end Kanakku
